import Mathlib

/-!
Verification of the OpenWorld `src-tauri` core (Rust) against its
natural-language specification.

The development shallowly embeds the stream decoder of
`src/src-tauri/src/chat.rs` (`send_chat_message`) and
`src/src-tauri/src/ollama.rs` (`pull_model`), the platform resolver
(`get_download_info`), the artifact installer (`download_ollama`), the
process supervisor (`start_ollama_server` / `stop_ollama`), the readiness
probe (`wait_for_ready`) and the lifecycle controller
(`ensure_ollama_ready`).

Modelling conventions:
* raw bytes are `Nat` (values 0..255); the NDJSON record separator is
  byte 10;
* `serde_json` parsing of one line (together with the lossy UTF-8
  conversion applied to it) is an external library call and is therefore
  abstracted as a parameter `parse : List Nat → Option α`; every theorem
  about the decoder quantifies over it;
* I/O outcomes (HTTP responses, chunk arrivals, file-system and
  subprocess results) are supplied by explicit environment records, and
  effects (files created/removed, statuses emitted, processes spawned)
  are returned as data.
-/

/-- One NDJSON "line" as drained by the Rust loop: the prefix of the byte
buffer up to and including the first newline byte.  `isLine l` says `l` is
non-empty, ends with byte 10 and contains no earlier byte 10. -/
def isLine : List Nat → Bool
  | [] => false
  | [b] => b = 10
  | b :: bs => b ≠ 10 && isLine bs

/-- Model of the drain loop of `send_chat_message` (chat.rs lines 86-106)
and `pull_model` (ollama.rs lines 529-535):
`while let Some(pos) = buffer.iter().position(|&b| b == b'\n') {
   let line = buffer.drain(..=pos) ... }`.
Returns the complete lines (each including its trailing separator byte),
in order, together with the remaining buffer (which holds no separator). -/
def drainLines : List Nat → List (List Nat) × List Nat
  | [] => ([], [])
  | b :: bs =>
    if b = 10 then
      ([10] :: (drainLines bs).1, (drainLines bs).2)
    else
      match drainLines bs with
      | (l :: ls, r) => ((b :: l) :: ls, r)
      | ([], r) => ([], b :: r)

/-! ## Stream decoder models (chat.rs `send_chat_message`, ollama.rs `pull_model`) -/

/-- `OllamaChatMsg` of chat.rs: `{ content: Option<String> }`. -/
structure OllamaChatMsg where
  content : Option String
deriving Repr, DecidableEq

/-- `OllamaChatChunk` of chat.rs: one parsed NDJSON chat record. -/
structure OllamaChatChunk where
  message : Option OllamaChatMsg
  done : Option Bool
deriving Repr, DecidableEq

/-- `StreamToken` of chat.rs: the DecodedEvent emitted for the chat schema. -/
structure StreamToken where
  conversation_id : String
  content : String
  done : Bool
deriving Repr, DecidableEq

/-- `chat_chunk.message.and_then(|m| m.content).unwrap_or_default()`. -/
def chunkContent (c : OllamaChatChunk) : String :=
  (c.message.bind OllamaChatMsg.content).getD ""

/-- `chat_chunk.done.unwrap_or(false)`. -/
def chunkDone (c : OllamaChatChunk) : Bool :=
  c.done.getD false

/-- The `StreamToken` built for an in-stream record (chat.rs lines 99-104). -/
def tokenOf (cid : String) (c : OllamaChatChunk) : StreamToken :=
  ⟨cid, chunkContent c, chunkDone c⟩

/-- The mutable state of `send_chat_message`'s decoding loop: the byte
buffer, the accumulated `full_response`, and the tokens emitted so far
(via `app.emit("chat-stream-token", ..)`), in emission order. -/
structure ChatState where
  buffer : List Nat
  full_response : String
  tokens : List StreamToken
deriving Repr, DecidableEq

/-- One iteration of the chunk loop of chat.rs lines 81-110: append the
arrived bytes to the buffer, drain every complete line, and for each line
that parses append its content to `full_response` and emit a token. -/
def chatFeed (parse : List Nat → Option OllamaChatChunk) (cid : String)
    (st : ChatState) (chunk : List Nat) : ChatState :=
  let res := drainLines (st.buffer ++ chunk)
  let parsed := res.1.filterMap parse
  { buffer := res.2,
    full_response := st.full_response ++ String.join (parsed.map chunkContent),
    tokens := st.tokens ++ parsed.map (tokenOf cid) }

/-- The end-of-stream step of chat.rs lines 112-129: if bytes remain in
the buffer they are parsed as one final record; on success its content is
appended and a token is emitted whose `done` field is the literal `true`. -/
def chatFinish (parse : List Nat → Option OllamaChatChunk) (cid : String)
    (st : ChatState) : ChatState :=
  if st.buffer.isEmpty then st
  else
    match parse st.buffer with
    | some c =>
      { buffer := st.buffer,
        full_response := st.full_response ++ chunkContent c,
        tokens := st.tokens ++ [⟨cid, chunkContent c, true⟩] }
    | none => st

/-- `send_chat_message` (chat.rs lines 77-131), given the conversation id
and the chunks delivered by the transport, in arrival order.  Its `Ok`
return value is the final `full_response`. -/
def send_chat_message (parse : List Nat → Option OllamaChatChunk)
    (cid : String) (chunks : List (List Nat)) : ChatState :=
  chatFinish parse cid (chunks.foldl (chatFeed parse cid) ⟨[], "", []⟩)

/-- `PullProgress` of ollama.rs: the DecodedEvent of the pull schema. -/
structure PullProgress where
  status : String
  digest : Option String
  total : Option Nat
  completed : Option Nat
deriving Repr, DecidableEq

/-- One iteration of the chunk loop of ollama.rs lines 525-539: state is
(events emitted via `app.emit("model-pull-progress", ..)`, buffer). -/
def pullFeed (parse : List Nat → Option PullProgress)
    (st : List PullProgress × List Nat) (chunk : List Nat) :
    List PullProgress × List Nat :=
  let res := drainLines (st.2 ++ chunk)
  (st.1 ++ res.1.filterMap parse, res.2)

/-- The event sequence emitted by `pull_model` (ollama.rs lines 522-546):
the chunk loop followed by the final-buffer step (lines 541-546), which
parses a non-empty remainder with the same rules and no forcing. -/
def pull_model (parse : List Nat → Option PullProgress)
    (chunks : List (List Nat)) : List PullProgress :=
  let res := chunks.foldl (pullFeed parse) ([], [])
  res.1 ++ (if res.2.isEmpty then [] else (parse res.2).toList)

/-- The bytes (ASCII) of the chat NDJSON line
`\x7b"message":\x7b"content":"Hello"\x7d,"done":false\x7d` followed by a
newline. -/
def c3line1 : List Nat :=
  [123, 34, 109, 101, 115, 115, 97, 103, 101, 34, 58, 123, 34, 99, 111, 110,
   116, 101, 110, 116, 34, 58, 34, 72, 101, 108, 108, 111, 34, 125, 44, 34,
   100, 111, 110, 101, 34, 58, 102, 97, 108, 115, 101, 125, 10]

/-- The bytes (ASCII) of the chat NDJSON record
`\x7b"message":\x7b"content":" world"\x7d,"done":true\x7d`, with no
trailing newline. -/
def c3line2 : List Nat :=
  [123, 34, 109, 101, 115, 115, 97, 103, 101, 34, 58, 123, 34, 99, 111, 110,
   116, 101, 110, 116, 34, 58, 34, 32, 119, 111, 114, 108, 100, 34, 125, 44,
   34, 100, 111, 110, 101, 34, 58, 116, 114, 117, 101, 125]

/-- First transport chunk of the Scenario C stream: cuts line 1 right
after `"Hel`. -/
def c3chunk1 : List Nat := c3line1.take 26

/-- Second transport chunk: the rest of line 1 (`lo"...`) and the first 20
bytes of line 2. -/
def c3chunk2 : List Nat := (c3line1.drop 26) ++ c3line2.take 20

/-- Third transport chunk: the rest of line 2. -/
def c3chunk3 : List Nat := c3line2.drop 20

/-- A concrete parse function agreeing with `serde_json` on the two chat
lines above and rejecting everything else; instantiates the
parse-parameterised decoder theorems on concrete inputs. -/
def c3parse (bs : List Nat) : Option OllamaChatChunk :=
  if bs = c3line1 then some ⟨some ⟨some "Hello"⟩, some false⟩
  else if bs = c3line2 then some ⟨some ⟨some " world"⟩, some true⟩
  else none

/-- The bytes (ASCII) of `not json` followed by a newline: a line that is
not a record of either schema. -/
def badLine : List Nat := [110, 111, 116, 32, 106, 115, 111, 110, 10]

/-- `c3line2` terminated by a newline, for the three-line chat stream. -/
def c2line2 : List Nat := c3line2 ++ [10]

/-- Chat parse stub for the C2 witness: accepts `c3line1` and `c2line2`,
rejects everything else (in particular `badLine`). -/
def c2parseChat (bs : List Nat) : Option OllamaChatChunk :=
  if bs = c3line1 then some ⟨some ⟨some "Hello"⟩, some false⟩
  else if bs = c2line2 then some ⟨some ⟨some " world"⟩, some true⟩
  else none

/-- The bytes (ASCII) of the pull NDJSON line
`\x7b"status":"pulling manifest"\x7d` followed by a newline. -/
def pullLine1 : List Nat :=
  [123, 34, 115, 116, 97, 116, 117, 115, 34, 58, 34, 112, 117, 108, 108,
   105, 110, 103, 32, 109, 97, 110, 105, 102, 101, 115, 116, 34, 125, 10]

/-- The bytes (ASCII) of the pull NDJSON line `\x7b"status":"success"\x7d`
followed by a newline. -/
def pullLine2 : List Nat :=
  [123, 34, 115, 116, 97, 116, 117, 115, 34, 58, 34, 115, 117, 99, 99, 101,
   115, 115, 34, 125, 10]

/-- Pull parse stub for the C2 witness: accepts the two pull lines above,
rejects everything else. -/
def c2parsePull (bs : List Nat) : Option PullProgress :=
  if bs = pullLine1 then some ⟨"pulling manifest", none, none, none⟩
  else if bs = pullLine2 then some ⟨"success", none, none, none⟩
  else none

/-! ## PlatformResolver (ollama.rs `get_download_info`) -/

/-- `get_download_info` (ollama.rs lines 139-157).  The Rust reads the
ambient `std::env::consts::OS` / `ARCH`; the embedding takes them as
arguments.  Returns `(url, needs_extract)` or the unsupported-platform
error. -/
def get_download_info (os arch : String) : Except String (String × Bool) :=
  match os, arch with
  | "macos", "aarch64" =>
    Except.ok ("https://github.com/ollama/ollama/releases/latest/download/ollama-darwin.tgz", true)
  | "macos", "x86_64" =>
    Except.ok ("https://github.com/ollama/ollama/releases/latest/download/ollama-darwin.tgz", true)
  | "linux", "x86_64" =>
    Except.ok ("https://github.com/ollama/ollama/releases/latest/download/ollama-linux-amd64.tar.zst", true)
  | "linux", "aarch64" =>
    Except.ok ("https://github.com/ollama/ollama/releases/latest/download/ollama-linux-arm64.tar.zst", true)
  | _, _ => Except.error ("Unsupported platform: " ++ os ++ "-" ++ arch)

/-! ## ArtifactInstaller (ollama.rs `download_ollama`, lines 160-311) -/

/-- `OllamaStatus` of ollama.rs: one emitted `ollama-setup-status` event.
The Rust `progress` is an `Option<f64>` fraction; it is modelled exactly
as an `Option (Nat × Nat)` rational (numerator, denominator), and the
percentage embedded in the per-chunk message is computed with the
corresponding exact integer arithmetic. -/
structure OllamaStatus where
  stage : String
  message : String
  progress : Option (Nat × Nat)
deriving Repr, DecidableEq

/-- One `stream.chunk().await` outcome inside the download loop
(ollama.rs lines 202-220): a chunk of `n` bytes written successfully, a
chunk whose `write_all` fails, `Ok(None)` (end of stream), or `Err(_)` —
which merely falsifies the `while let Ok(..)` condition. -/
inductive ChunkEv
  | bytes (n : Nat)
  | writeFail
  | eos
  | fail
deriving Repr, DecidableEq

/-- The per-chunk progress message
`format!("Downloading AI engine... \x7b\x7d%", (pct * 100.0) as u32)`. -/
def progressMsg (pct : Nat) : String :=
  "Downloading AI engine... " ++ toString pct ++ "%"

/-- The download loop of ollama.rs lines 199-220: returns the bytes
written, the progress statuses emitted, and whether all writes succeeded
(`false` reports the early `Write error` return).  Both `eos` and `fail`
end the loop: a chunk error is NOT distinguished from end-of-stream. -/
def transferRun (total : Nat) : List ChunkEv → Nat → Nat × List OllamaStatus × Bool
  | [], d => (d, [], true)
  | ChunkEv.bytes n :: rest, d =>
    let d2 := d + n
    let sts := if total > 0 then
        [⟨"downloading", progressMsg (d2 * 100 / total), some (d2, total)⟩]
      else []
    let r := transferRun total rest d2
    (r.1, sts ++ r.2.1, r.2.2)
  | ChunkEv.writeFail :: _, d => (d, [], false)
  | ChunkEv.eos :: _, d => (d, [], true)
  | ChunkEv.fail :: _, d => (d, [], true)

/-- The I/O outcomes a `download_ollama` run can observe, supplied as an
explicit environment (the Rust obtains them from the OS and the network).
Error-message details appended from OS errors are elided. -/
structure DlEnv where
  os : String
  arch : String
  send_ok : Bool
  http_status : Nat
  content_length : Option Nat
  transfer : List ChunkEv
  create_ok : Bool
  tar_run_ok : Bool
  tar_status_ok : Bool
  extract_top : Bool
  extract_alt : Bool
  rename_ok : Bool
  chmod_ok : Bool
  probe_run_ok : Bool
deriving Repr, DecidableEq

/-- Which files exist when `download_ollama` returns: the temporary
download path (`ollama-download.tgz` when extraction is needed, the
binary path itself otherwise) and the canonical binary path. -/
structure DlFiles where
  download_file : Bool
  bin_file : Bool
deriving Repr, DecidableEq

/-- Decidable equality for `Except`, needed to evaluate concrete runs. -/
def exceptDecEq {ε α : Type} [DecidableEq ε] [DecidableEq α] :
    (a b : Except ε α) → Decidable (a = b)
  | Except.ok a, Except.ok b =>
    if h : a = b then Decidable.isTrue (by rw [h])
    else Decidable.isFalse (by simp [h])
  | Except.ok _, Except.error _ => Decidable.isFalse (by simp)
  | Except.error _, Except.ok _ => Decidable.isFalse (by simp)
  | Except.error a, Except.error b =>
    if h : a = b then Decidable.isTrue (by rw [h])
    else Decidable.isFalse (by simp [h])

instance {ε α : Type} [DecidableEq ε] [DecidableEq α] : DecidableEq (Except ε α) :=
  exceptDecEq

structure DlResult where
  result : Except String String
  statuses : List OllamaStatus
  files : DlFiles
deriving Repr, DecidableEq

/-- `get_ollama_bin_path` (ollama.rs lines 83-90), with the app data
directory abbreviated to `bin/`. -/
def get_ollama_bin_path (os : String) : String :=
  if os = "windows" then "bin/ollama.exe" else "bin/ollama"

/-- The tail of `download_ollama` (ollama.rs lines 284-310): chmod on
POSIX, then the `--version` probe — whose failure returns an error
WITHOUT deleting anything — then the final status and the promoted path. -/
def finishInstall (env : DlEnv) (sts : List OllamaStatus) (files : DlFiles) : DlResult :=
  if env.chmod_ok then
    if env.probe_run_ok then
      ⟨Except.ok (get_ollama_bin_path env.os),
        sts ++ [⟨"downloading", "Download complete!", some (1, 1)⟩], files⟩
    else ⟨Except.error "Downloaded binary is not executable", sts, files⟩
  else ⟨Except.error "Permission error", sts, files⟩

/-- The initial `emit_status(app, "downloading", .., Some(0.0))` of
`download_ollama` (ollama.rs line 161). -/
def dlStatus0 : OllamaStatus := ⟨"downloading", "Downloading AI engine...", some (0, 1)⟩

/-- The `emit_status(app, "downloading", "Extracting AI engine...",
Some(0.95))` of ollama.rs line 242. -/
def dlStatusExtract : OllamaStatus := ⟨"downloading", "Extracting AI engine...", some (19, 20)⟩

/-- The download loop of one run: `transferRun` at the run's declared
content length (`resp.content_length().unwrap_or(0)`), starting from 0
bytes. -/
def dlTr (env : DlEnv) : Nat × List OllamaStatus × Bool :=
  transferRun (env.content_length.getD 0) env.transfer 0

/-- The extraction block of `download_ollama` (ollama.rs lines 240-282):
emit the extracting status, run `tar` (both a spawn failure and a non-zero
exit leave the archive in place), remove the archive, then look for the
binary at top level or nested under `bin/`, relocating the nested one;
on success continue with chmod and the version probe. -/
def extractPhase (env : DlEnv) (sts : List OllamaStatus) : DlResult :=
  if ¬env.tar_run_ok then
    ⟨Except.error "Failed to extract", sts ++ [dlStatusExtract], ⟨true, false⟩⟩
  else if ¬env.tar_status_ok then
    ⟨Except.error "Extraction failed", sts ++ [dlStatusExtract], ⟨true, false⟩⟩
  else if ¬env.extract_top ∧ env.extract_alt ∧ ¬env.rename_ok then
    ⟨Except.error "Failed to move binary", sts ++ [dlStatusExtract], ⟨false, false⟩⟩
  else if ¬env.extract_top ∧ ¬env.extract_alt then
    ⟨Except.error "Extraction succeeded but Ollama binary not found in archive",
      sts ++ [dlStatusExtract], ⟨false, false⟩⟩
  else finishInstall env (sts ++ [dlStatusExtract]) ⟨false, true⟩

/-- `download_ollama` (ollama.rs lines 160-311): emit the initial status,
resolve the platform, download to the temporary file while emitting
progress, run the ≥ 1,000,000-byte integrity gate (deleting the file on
failure), extract the archive when required, then chmod and
version-probe. -/
def download_ollama (env : DlEnv) : DlResult :=
  match get_download_info env.os env.arch with
  | Except.error e => ⟨Except.error e, [dlStatus0], ⟨false, false⟩⟩
  | Except.ok (_, needs_extract) =>
    if ¬env.send_ok then ⟨Except.error "Download request failed", [dlStatus0], ⟨false, false⟩⟩
    else if ¬(200 ≤ env.http_status ∧ env.http_status < 300) then
      ⟨Except.error ("Download failed with HTTP " ++ toString env.http_status),
        [dlStatus0], ⟨false, false⟩⟩
    else if ¬env.create_ok then
      ⟨Except.error "Failed to create file", [dlStatus0], ⟨false, false⟩⟩
    else if ¬(dlTr env).2.2 then
      ⟨Except.error "Write error", dlStatus0 :: (dlTr env).2.1, ⟨true, !needs_extract⟩⟩
    else if (dlTr env).1 < 1000000 then
      ⟨Except.error ("Download corrupted: got " ++ toString (dlTr env).1
          ++ " bytes instead of expected ~70MB"),
        dlStatus0 :: (dlTr env).2.1, ⟨false, false⟩⟩
    else if needs_extract then extractPhase env (dlStatus0 :: (dlTr env).2.1)
    else finishInstall env (dlStatus0 :: (dlTr env).2.1) ⟨true, true⟩

/-- A download run in which everything succeeds except the version probe:
a well-sized (2,000,000-byte) transfer on Linux/x86_64, successful
extraction with the binary at top level, but `--version` fails to run. -/
def probeFailEnv : DlEnv :=
  { os := "linux", arch := "x86_64", send_ok := true, http_status := 200,
    content_length := some 2000000,
    transfer := [ChunkEv.bytes 2000000, ChunkEv.eos],
    create_ok := true, tar_run_ok := true, tar_status_ok := true,
    extract_top := true, extract_alt := false, rename_ok := true,
    chmod_ok := true, probe_run_ok := false }

/-- The same run with a healthy probe but only 500 bytes transferred. -/
def smallDownloadEnv : DlEnv :=
  { probeFailEnv with
    transfer := [ChunkEv.bytes 500, ChunkEv.eos]
    probe_run_ok := true }

/-- The same run, 2,000,000 bytes transferred and then a mid-transfer
chunk error (`Err` from `stream.chunk()`), probe healthy. -/
def chunkErrEnv : DlEnv :=
  { probeFailEnv with
    transfer := [ChunkEv.bytes 2000000, ChunkEv.fail]
    probe_run_ok := true }

/-- A run whose initial GET fails outright. -/
def sendFailEnv : DlEnv := { probeFailEnv with send_ok := false }

/-- A run answered with HTTP 404. -/
def http404Env : DlEnv := { probeFailEnv with http_status := 404 }

/-! ## ProcessSupervisor (ollama.rs `start_ollama_server` / `stop_ollama`) -/

/-- The supervisor's environment: whether the child with a given pid still
runs (`child.try_wait()` returning `Ok(None)`) and whether the spawn of a
given fresh pid succeeds. -/
structure SupEnv where
  live : Nat → Bool
  spawn_ok : Nat → Bool

/-- The state guarded by the global `OLLAMA_PROCESS: Mutex<Option<Child>>`
(ollama.rs lines 67-69), instrumented with a fresh-pid counter and the
histories of spawned and killed pids.  The mutex serialises all accesses,
so runs are modelled as sequences of atomic calls. -/
structure SupWorld where
  held : Option Nat
  nextPid : Nat
  spawned : List Nat
  killed : List Nat
deriving Repr, DecidableEq

/-- `Command::new(binary_path).arg("serve").spawn()` and the storing of
the child (ollama.rs lines 326-338). -/
def spawnChild (env : SupEnv) (w : SupWorld) : Except String Unit × SupWorld :=
  if env.spawn_ok w.nextPid then
    (Except.ok (), { held := some w.nextPid, nextPid := w.nextPid + 1,
                     spawned := w.spawned ++ [w.nextPid], killed := w.killed })
  else (Except.error "Failed to start Ollama", w)

/-- `start_ollama_server` (ollama.rs lines 314-339): under the lock, if a
held child reports `Ok(None)` from `try_wait` the call is a no-op
returning `Ok`; otherwise a new `serve` child is spawned and stored. -/
def start_ollama_server (env : SupEnv) (w : SupWorld) : Except String Unit × SupWorld :=
  match w.held with
  | some pid => if env.live pid then (Except.ok (), w) else spawnChild env w
  | none => spawnChild env w

/-- `stop_ollama` (ollama.rs lines 568-575): kill the held child if one is
held, then clear the reference; safe when none is held. -/
def stop_ollama (w : SupWorld) : SupWorld :=
  match w.held with
  | some pid => { w with held := none, killed := w.killed ++ [pid] }
  | none => { w with held := none }

inductive SupOp
  | start
  | stop
deriving Repr, DecidableEq

/-- A serialised sequence of supervisor calls (the mutex guarantees the
calls interleave atomically). -/
def runSup (env : SupEnv) : SupWorld → List SupOp → SupWorld
  | w, [] => w
  | w, SupOp.start :: ops => runSup env (start_ollama_server env w).2 ops
  | w, SupOp.stop :: ops => runSup env (stop_ollama w) ops

/-- Number of EngineProcesses currently held. -/
def heldCount (w : SupWorld) : Nat :=
  match w.held with
  | some _ => 1
  | none => 0

/-- The initial world: no process held, no pid used. -/
def initWorld : SupWorld := ⟨none, 0, [], []⟩

/-- An environment where every spawn succeeds and every child stays
live. -/
def allLiveEnv : SupEnv := ⟨fun _ => true, fun _ => true⟩

/-! ## ReadinessProbe (ollama.rs `wait_for_ready`) -/

/-- The polling loop of `wait_for_ready` (ollama.rs lines 348-361): at
attempt index `i` with `fuel` attempts remaining, issue one request
(`respond i`); return at the first success.  Returns the result and the
number of requests issued. -/
def pollLoop (respond : Nat → Bool) : Nat → Nat → Bool × Nat
  | _, 0 => (false, 0)
  | i, fuel + 1 =>
    if respond i then (true, 1)
    else
      ((pollLoop respond (i + 1) fuel).1, (pollLoop respond (i + 1) fuel).2 + 1)

/-- `wait_for_ready` (ollama.rs lines 342-364): `attempts = max_seconds
* 2` (one request per 500 ms tick, the sleep being represented by the
attempt index; the `u32` arithmetic is exact for the budgets used, 3 and
30).  Returns a Bool — never an error — and the number of requests. -/
def wait_for_ready (respond : Nat → Bool) (max_seconds : Nat) : Bool × Nat :=
  pollLoop respond 0 (max_seconds * 2)

/-! ## LifecycleController (ollama.rs `ensure_ollama_ready`) -/

/-- The environment of one lifecycle run: responses for the short (3 s)
and long (30 s) readiness probes, the result of `find_ollama_binary`,
the installer's environment, and the supervisor's environment. -/
structure LcEnv where
  short : Nat → Bool
  long : Nat → Bool
  found : Option String
  dl : DlEnv
  sup : SupEnv

/-- The observable outcome of `ensure_ollama_ready`: the returned value,
the emitted `ollama-setup-status` events in order, which phases were
invoked, and the resulting supervisor world. -/
structure LcResult where
  result : Except String Unit
  statuses : List OllamaStatus
  find_invoked : Bool
  download_invoked : Bool
  start_invoked : Bool
  world : SupWorld
deriving Repr, DecidableEq

/-- `emit_status(&app, "checking", "Checking AI engine...", None)`. -/
def checkingStatus : OllamaStatus := ⟨"checking", "Checking AI engine...", none⟩

/-- `emit_status(&app, "ready", "AI engine ready!", None)`. -/
def readyStatus : OllamaStatus := ⟨"ready", "AI engine ready!", none⟩

/-- The timeout message of ollama.rs line 438. -/
def lcTimeoutMsg : String := "AI engine timed out after 30s. Check terminal for details."

/-- Steps 3-4 of `ensure_ollama_ready` (ollama.rs lines 421-442): emit
the starting status, start the server, then wait up to 30 s; every path
has both found/located a binary and attempted a start. -/
def startAndWait (env : LcEnv) (w : SupWorld) (sts : List OllamaStatus)
    (downloaded : Bool) : LcResult :=
  match start_ollama_server env.sup w with
  | (Except.error e, w2) =>
    ⟨Except.error e,
      sts ++ [⟨"starting", "Starting AI engine...", none⟩,
              ⟨"error", "Failed to start: " ++ e, none⟩],
      true, downloaded, true, w2⟩
  | (Except.ok _, w2) =>
    if (wait_for_ready env.long 30).1 then
      ⟨Except.ok (),
        sts ++ [⟨"starting", "Starting AI engine...", none⟩,
                ⟨"starting", "Waiting for AI engine to be ready...", none⟩,
                readyStatus],
        true, downloaded, true, w2⟩
    else
      ⟨Except.error lcTimeoutMsg,
        sts ++ [⟨"starting", "Starting AI engine...", none⟩,
                ⟨"starting", "Waiting for AI engine to be ready...", none⟩,
                ⟨"error", lcTimeoutMsg, none⟩],
        true, downloaded, true, w2⟩

/-- `ensure_ollama_ready` (ollama.rs lines 381-443): emit `checking` and
probe with the short budget — on success emit `ready` and stop; otherwise
locate the binary (downloading when absent, failing on installer error),
start the server and probe with the long budget. -/
def ensure_ollama_ready (env : LcEnv) (w : SupWorld) : LcResult :=
  if (wait_for_ready env.short 3).1 then
    ⟨Except.ok (), [checkingStatus, readyStatus], false, false, false, w⟩
  else
    match env.found with
    | some _ =>
      startAndWait env w
        [checkingStatus, ⟨"starting", "Found AI engine, starting...", none⟩] false
    | none =>
      match (download_ollama env.dl).result with
      | Except.error e =>
        ⟨Except.error e,
          checkingStatus :: (download_ollama env.dl).statuses
            ++ [⟨"error", "Download failed: " ++ e, none⟩],
          true, true, false, w⟩
      | Except.ok _ =>
        startAndWait env w (checkingStatus :: (download_ollama env.dl).statuses) true

/-- A lifecycle environment whose engine is already serving. -/
def readyLcEnv : LcEnv :=
  { short := fun _ => true, long := fun _ => true, found := none,
    dl := probeFailEnv, sup := allLiveEnv }

/-! ## Theorems -/

theorem drainLines_recomb (bs : List Nat) :
    ((drainLines bs).1).flatten ++ (drainLines bs).2 = bs := by
  induction bs with
  | nil => simp [drainLines]
  | cons b bs ih =>
    by_cases hb : b = 10
    · subst hb; simp [drainLines, ih]
    · simp only [drainLines, hb, if_neg, ite_false]
      rcases h : drainLines bs with ⟨ls, r⟩
      cases ls with
      | nil => simp [h] at ih; simp [ih]
      | cons l ls => simp [h] at ih ⊢; simpa using ih

theorem drainLines_no_nl (bs : List Nat) : 10 ∉ (drainLines bs).2 := by
  induction bs with
  | nil => simp [drainLines]
  | cons b bs ih =>
    by_cases hb : b = 10
    · subst hb; simpa [drainLines] using ih
    · simp only [drainLines, hb, ite_false]
      rcases h : drainLines bs with ⟨ls, r⟩
      cases ls with
      | nil =>
        simp [h] at ih
        intro hm
        simp only [List.mem_cons] at hm
        rcases hm with hm | hm
        · exact hb hm.symm
        · exact ih hm
      | cons l ls => simp [h] at ih; simpa using ih

theorem drainLines_of_no_nl (bs : List Nat) (h : 10 ∉ bs) :
    drainLines bs = ([], bs) := by
  induction bs with
  | nil => rfl
  | cons b bs ih =>
    simp only [List.mem_cons, not_or] at h
    have hb : ¬b = 10 := fun hh => h.1 hh.symm
    simp [drainLines, hb, ih h.2]

theorem drainLines_isLine (bs : List Nat) :
    ∀ l ∈ (drainLines bs).1, isLine l = true := by
  induction bs with
  | nil => simp [drainLines]
  | cons b bs ih =>
    by_cases hb : b = 10
    · subst hb
      simp only [drainLines, ite_true, List.mem_cons]
      rintro l (rfl | hl)
      · rfl
      · exact ih l hl
    · simp only [drainLines, hb, ite_false]
      rcases h : drainLines bs with ⟨ls, r⟩
      cases ls with
      | nil => simp
      | cons l ls =>
        simp only [List.mem_cons]
        rintro x (rfl | hx)
        · have hl : isLine l = true := by
            have := ih l; simp [h] at this; exact this
          cases l with
          | nil => simp [isLine] at hl
          | cons c cs => simp_all [isLine]
        · exact ih x (by simp [h, hx])

theorem drainLines_append (a b : List Nat) :
    drainLines (a ++ b) =
      ((drainLines a).1 ++ (drainLines ((drainLines a).2 ++ b)).1,
        (drainLines ((drainLines a).2 ++ b)).2) := by
  induction a with
  | nil => simp [drainLines]
  | cons x xs ih =>
    by_cases hx : x = 10
    · subst hx
      simp [drainLines, ih]
    · simp only [List.cons_append, drainLines, hx, ite_false]
      rcases h : drainLines xs with ⟨ls, r⟩
      rw [h] at ih
      cases ls with
      | nil =>
        simp only [List.append_eq] at ih ⊢
        rw [ih]
        rcases h2 : drainLines (r ++ b) with ⟨ls2, r2⟩
        cases ls2 with
        | nil => simp [drainLines, hx, h2]
        | cons l2 ls2 => simp [drainLines, hx, h2]
      | cons l ls =>
        simp only [List.append_eq] at ih ⊢
        rw [ih]
        simp

/-- The remainder left by `drainLines` is a fixed point: draining it again
produces no further lines. -/
theorem drainLines_idem (bs : List Nat) :
    drainLines (drainLines bs).2 = ([], (drainLines bs).2) :=
  drainLines_of_no_nl _ (drainLines_no_nl bs)

theorem str_append_assoc (a b c : String) : a ++ b ++ c = a ++ (b ++ c) := by
  apply String.ext
  simp [String.data_append]

theorem str_join_append (a b : List String) :
    String.join (a ++ b) = String.join a ++ String.join b := by
  apply String.ext
  simp [String.data_append, String.data_join]

theorem str_join_singleton (s : String) : String.join [s] = s := by
  apply String.ext
  simp [String.data_join]

/-- Folding the chat chunk loop over any chunk sequence, from a state whose
buffer holds no separator, is determined by the concatenation of the
buffer and the chunks. -/
theorem chatFeed_foldl (parse : List Nat → Option OllamaChatChunk) (cid : String)
    (chunks : List (List Nat)) :
    ∀ st : ChatState, 10 ∉ st.buffer →
      chunks.foldl (chatFeed parse cid) st =
        { buffer := (drainLines (st.buffer ++ chunks.flatten)).2,
          full_response := st.full_response ++ String.join
            ((((drainLines (st.buffer ++ chunks.flatten)).1).filterMap parse).map chunkContent),
          tokens := st.tokens ++
            (((drainLines (st.buffer ++ chunks.flatten)).1).filterMap parse).map (tokenOf cid) } := by
  induction chunks with
  | nil =>
    intro st h
    simp [drainLines_of_no_nl _ h, String.join]
  | cons c cs ih =>
    intro st h
    rw [List.foldl_cons, ih _ (by exact drainLines_no_nl _)]
    have key := drainLines_append (st.buffer ++ c) cs.flatten
    simp only [chatFeed, List.flatten_cons, ← List.append_assoc, key,
      List.filterMap_append, List.map_append, str_join_append, ← str_append_assoc]

/-- `send_chat_message` equals the compositional decode of the whole
payload: drain the lines of the byte concatenation, parse each in order,
then run the finish step on the remainder. -/
theorem send_chat_message_eq (parse : List Nat → Option OllamaChatChunk)
    (cid : String) (chunks : List (List Nat)) :
    send_chat_message parse cid chunks =
      chatFinish parse cid
        { buffer := (drainLines chunks.flatten).2,
          full_response := String.join
            ((((drainLines chunks.flatten).1).filterMap parse).map chunkContent),
          tokens := (((drainLines chunks.flatten).1).filterMap parse).map (tokenOf cid) } := by
  unfold send_chat_message
  rw [chatFeed_foldl parse cid chunks ⟨[], "", []⟩ (by simp)]
  simp

/-- Folding the pull chunk loop is likewise determined by the byte
concatenation. -/
theorem pullFeed_foldl (parse : List Nat → Option PullProgress)
    (chunks : List (List Nat)) :
    ∀ st : List PullProgress × List Nat, 10 ∉ st.2 →
      chunks.foldl (pullFeed parse) st =
        (st.1 ++ ((drainLines (st.2 ++ chunks.flatten)).1).filterMap parse,
          (drainLines (st.2 ++ chunks.flatten)).2) := by
  induction chunks with
  | nil =>
    intro st h
    simp [drainLines_of_no_nl _ h]
  | cons c cs ih =>
    intro st h
    rw [List.foldl_cons, ih _ (by exact drainLines_no_nl _)]
    have key := drainLines_append (st.2 ++ c) cs.flatten
    simp only [pullFeed, List.flatten_cons, ← List.append_assoc, key,
      List.filterMap_append]

/-- `pull_model` equals the compositional decode of the whole payload. -/
theorem pull_model_eq (parse : List Nat → Option PullProgress)
    (chunks : List (List Nat)) :
    pull_model parse chunks =
      ((drainLines chunks.flatten).1).filterMap parse
        ++ (if (drainLines chunks.flatten).2.isEmpty then []
            else (parse (drainLines chunks.flatten).2).toList) := by
  unfold pull_model
  rw [pullFeed_foldl parse chunks ([], []) (by simp)]
  simp

theorem drainLines_cons_ne (b : Nat) (bs : List Nat) (hb : ¬b = 10) :
    drainLines (b :: bs) =
      match drainLines bs with
      | (l :: ls, r) => ((b :: l) :: ls, r)
      | ([], r) => ([], b :: r) := by
  simp [drainLines, hb]

/-- `drainLines` performs exactly the source's loop step: if
`buffer.iter().position(|&b| b == b'\n')` finds `pos`, the drained line is
`buffer.drain(..=pos)` (the first `pos + 1` bytes) and scanning continues
on the rest; otherwise the buffer is left untouched. -/
theorem drainLines_findIdx (bs : List Nat) :
    drainLines bs =
      match bs.findIdx? (fun b => b == 10) with
      | some pos =>
        (bs.take (pos + 1) :: (drainLines (bs.drop (pos + 1))).1,
          (drainLines (bs.drop (pos + 1))).2)
      | none => ([], bs) := by
  induction bs with
  | nil => rfl
  | cons b bs ih =>
    by_cases hb : b = 10
    · subst hb
      simp [drainLines, List.findIdx?_cons]
    · have hbne : (b == 10) = false := by simpa using hb
      rw [drainLines_cons_ne b bs hb, ih]
      simp only [List.findIdx?_cons, hbne, Bool.false_eq_true, if_false, ite_false,
        List.findIdx?_start_succ]
      rcases h : bs.findIdx? (fun x => x == 10) with _ | pos
      · simp
      · simp [List.take_succ_cons, List.drop_succ_cons]

/-- Draining a buffer that starts with one complete line yields that line
first, followed by the lines of the rest. -/
theorem drainLines_line (l rest : List Nat) (hl : isLine l = true) :
    drainLines (l ++ rest) = (l :: (drainLines rest).1, (drainLines rest).2) := by
  induction l with
  | nil => simp [isLine] at hl
  | cons b bs ih =>
    cases bs with
    | nil =>
      simp [isLine] at hl
      subst hl
      simp [drainLines]
    | cons b2 bs2 =>
      simp only [isLine, Bool.and_eq_true, decide_eq_true_eq, bne_iff_ne, ne_eq] at hl
      have hrec := ih hl.2
      rw [List.cons_append, drainLines_cons_ne b _ hl.1, hrec]

theorem chatFinish_tokens (parse : List Nat → Option OllamaChatChunk)
    (cid : String) (st : ChatState) :
    (chatFinish parse cid st).tokens = st.tokens ++
      (if st.buffer.isEmpty then []
        else
          match parse st.buffer with
          | some c => [⟨cid, chunkContent c, true⟩]
          | none => []) := by
  by_cases h : st.buffer.isEmpty
  · simp [chatFinish, h]
  · simp only [chatFinish, h, if_false, ite_false]
    rcases hp : parse st.buffer with _ | c <;> simp [hp]

theorem chatFinish_resp (parse : List Nat → Option OllamaChatChunk)
    (cid : String) (st : ChatState) :
    (chatFinish parse cid st).full_response = st.full_response ++
      (if st.buffer.isEmpty then ""
        else
          match parse st.buffer with
          | some c => chunkContent c
          | none => "") := by
  by_cases h : st.buffer.isEmpty
  · simp [chatFinish, h]
  · simp only [chatFinish, h, if_false, ite_false]
    rcases hp : parse st.buffer with _ | c <;> simp [hp]

/-- C1 — Chunking invariance of the stream decoder: for every payload and
every partition of its bytes into chunks, feeding the chunks in order to
the decoder (chat-token or pull-progress schema) and finishing yields the
same result as feeding the whole payload as one chunk; moreover the events
are exactly the per-line parses of the byte stream, in source-line order
(followed by the finish-step event, if any). -/
theorem chunking_invariance
    (pc : List Nat → Option OllamaChatChunk) (pp : List Nat → Option PullProgress)
    (cid : String) (chunks : List (List Nat)) :
    send_chat_message pc cid chunks = send_chat_message pc cid [chunks.flatten]
    ∧ pull_model pp chunks = pull_model pp [chunks.flatten]
    ∧ (send_chat_message pc cid chunks).tokens =
        (((drainLines chunks.flatten).1).filterMap pc).map (tokenOf cid)
          ++ (if (drainLines chunks.flatten).2.isEmpty then []
              else
                match pc (drainLines chunks.flatten).2 with
                | some c => [⟨cid, chunkContent c, true⟩]
                | none => [])
    ∧ pull_model pp chunks =
        ((drainLines chunks.flatten).1).filterMap pp
          ++ (if (drainLines chunks.flatten).2.isEmpty then []
              else (pp (drainLines chunks.flatten).2).toList) := by
  refine ⟨?_, ?_, ?_, ?_⟩
  · rw [send_chat_message_eq, send_chat_message_eq]; simp
  · rw [pull_model_eq, pull_model_eq]; simp
  · rw [send_chat_message_eq, chatFinish_tokens]
  · exact pull_model_eq pp chunks

/-- A stream made of exactly three newline-terminated lines drains to
those three lines and an empty remainder. -/
theorem drainLines_three (v1 bad v2 : List Nat)
    (h1 : isLine v1 = true) (hbL : isLine bad = true) (h2 : isLine v2 = true) :
    drainLines (v1 ++ (bad ++ v2)) = ([v1, bad, v2], []) := by
  have hv2 : drainLines v2 = ([v2], []) := by
    simpa using drainLines_line v2 [] h2
  have hbad : drainLines (bad ++ v2) = ([bad, v2], []) := by
    rw [drainLines_line bad v2 hbL, hv2]
  rw [drainLines_line v1 _ h1, hbad]

/-- C2 — Malformed-line resilience: for either schema, a line that fails
to parse is silently discarded without failing the stream; a stream of one
invalid line between two valid lines yields exactly the two events of the
valid lines, in order. -/
theorem malformed_line_resilience
    (pc : List Nat → Option OllamaChatChunk) (pp : List Nat → Option PullProgress)
    (cid : String) (v1 bad v2 u1 ubad u2 : List Nat)
    (h1 : isLine v1 = true) (hbL : isLine bad = true) (h2 : isLine v2 = true)
    (g1 : isLine u1 = true) (gbL : isLine ubad = true) (g2 : isLine u2 = true)
    (c1 c2 : OllamaChatChunk) (q1 q2 : PullProgress)
    (hp1 : pc v1 = some c1) (hpb : pc bad = none) (hp2 : pc v2 = some c2)
    (hq1 : pp u1 = some q1) (hqb : pp ubad = none) (hq2 : pp u2 = some q2) :
    (send_chat_message pc cid [v1 ++ (bad ++ v2)]).tokens
        = [tokenOf cid c1, tokenOf cid c2]
    ∧ pull_model pp [u1 ++ (ubad ++ u2)] = [q1, q2] := by
  constructor
  · rw [send_chat_message_eq, chatFinish_tokens]
    simp [drainLines_three v1 bad v2 h1 hbL h2, hp1, hpb, hp2]
  · rw [pull_model_eq]
    simp [drainLines_three u1 ubad u2 g1 gbL g2, hq1, hqb, hq2]

/-- C3 — Terminal signal on stream end: if, once all chunks are fed, the
buffer holds a non-empty trailing record with no final separator, that
remainder is parsed as one final record and the resulting token carries
`done = true` regardless of the parsed value; it is the last token. -/
theorem finish_forces_done
    (pc : List Nat → Option OllamaChatChunk) (cid : String)
    (chunks : List (List Nat)) (c : OllamaChatChunk)
    (hne : (drainLines chunks.flatten).2 ≠ [])
    (hp : pc ((drainLines chunks.flatten).2) = some c) :
    (send_chat_message pc cid chunks).tokens =
      (((drainLines chunks.flatten).1).filterMap pc).map (tokenOf cid)
        ++ [⟨cid, chunkContent c, true⟩]
    ∧ (send_chat_message pc cid chunks).tokens.getLast? =
        some ⟨cid, chunkContent c, true⟩ := by
  have hmain : (send_chat_message pc cid chunks).tokens =
      (((drainLines chunks.flatten).1).filterMap pc).map (tokenOf cid)
        ++ [⟨cid, chunkContent c, true⟩] := by
    rw [send_chat_message_eq, chatFinish_tokens]
    have hE : (drainLines chunks.flatten).2.isEmpty = false := by
      simpa [List.isEmpty_iff] using hne
    simp [hE, hp]
  refine ⟨hmain, ?_⟩
  rw [hmain, List.getLast?_concat]

/-- C10 — Return value of the chat call: the string returned on success by
`send_chat_message` is the in-order concatenation of the `content` fields
of every successfully parsed record, including the trailing partial record
at stream end; unparsable lines contribute nothing. -/
theorem chat_return_value (pc : List Nat → Option OllamaChatChunk)
    (cid : String) (chunks : List (List Nat)) :
    (send_chat_message pc cid chunks).full_response =
      String.join ((((drainLines chunks.flatten).1).filterMap pc
          ++ (if (drainLines chunks.flatten).2.isEmpty then []
              else (pc ((drainLines chunks.flatten).2)).toList)).map chunkContent) := by
  rw [send_chat_message_eq, chatFinish_resp]
  by_cases h : (drainLines chunks.flatten).2.isEmpty
  · simp [h]
  · rcases hp : pc (drainLines chunks.flatten).2 with _ | c
    · simp [h, hp]
    · simp [h, hp, str_join_append, str_join_singleton]

/-- Witness for C3, Scenario C: the 2-line chat stream with contents
`"Hel"+"lo"` and `" world"` delivered in 3 chunks yields exactly the two
tokens `Hello` and ` world` in order, the concatenated content is
`"Hello world"`, and the final token carries `done = true`. -/
theorem finish_forces_done_witness :
    (drainLines ([c3chunk1, c3chunk2, c3chunk3].flatten)).2 ≠ []
    ∧ (send_chat_message c3parse "c" [c3chunk1, c3chunk2, c3chunk3]).tokens.getLast? =
        some ⟨"c", " world", true⟩
    ∧ (send_chat_message c3parse "c" [c3chunk1, c3chunk2, c3chunk3]).tokens =
        [⟨"c", "Hello", false⟩, ⟨"c", " world", true⟩]
    ∧ (send_chat_message c3parse "c" [c3chunk1, c3chunk2, c3chunk3]).full_response =
        "Hello world" := by
  refine ⟨by decide, ?_, by decide, by decide⟩
  exact (finish_forces_done c3parse "c" [c3chunk1, c3chunk2, c3chunk3]
    ⟨some ⟨some " world"⟩, some true⟩ (by decide) (by decide)).2

/-- Witness for C2: a chat stream and a pull stream each holding one
unparsable line between two valid lines yield exactly the two events of
the valid lines, in order. -/
theorem malformed_line_resilience_witness :
    (send_chat_message c2parseChat "c" [c3line1 ++ (badLine ++ c2line2)]).tokens
        = [⟨"c", "Hello", false⟩, ⟨"c", " world", true⟩]
    ∧ pull_model c2parsePull [pullLine1 ++ (badLine ++ pullLine2)]
        = [⟨"pulling manifest", none, none, none⟩, ⟨"success", none, none, none⟩] :=
  malformed_line_resilience c2parseChat c2parsePull "c"
    c3line1 badLine c2line2 pullLine1 badLine pullLine2
    (by decide) (by decide) (by decide) (by decide) (by decide) (by decide)
    ⟨some ⟨some "Hello"⟩, some false⟩ ⟨some ⟨some " world"⟩, some true⟩
    ⟨"pulling manifest", none, none, none⟩ ⟨"success", none, none, none⟩
    (by decide) (by decide) (by decide) (by decide) (by decide) (by decide)

/-- C4 counterexample: contrary to the claim's supported set, the resolver
gives Windows/x86_64 no DownloadSource — it returns the
unsupported-platform error. -/
theorem windows_not_supported :
    get_download_info "windows" "x86_64" =
      Except.error "Unsupported platform: windows-x86_64" := rfl

/-- C4 (amended) — PlatformResolver totality: the resolver succeeds
exactly on {macOS/arm64, macOS/x86_64, Linux/x86_64, Linux/arm64}, every
returned source requires archive extraction, and every pair outside that
set (including Windows/x86_64) gets the unsupported-platform error.  The
function is pure by construction. -/
theorem platform_resolver_total (os arch : String) :
    ((get_download_info os arch).isOk ↔
      (os, arch) ∈ [("macos", "aarch64"), ("macos", "x86_64"),
                    ("linux", "x86_64"), ("linux", "aarch64")])
    ∧ (∀ url b, get_download_info os arch = Except.ok (url, b) → b = true)
    ∧ ((os, arch) ∉ [("macos", "aarch64"), ("macos", "x86_64"),
                     ("linux", "x86_64"), ("linux", "aarch64")] →
        get_download_info os arch =
          Except.error ("Unsupported platform: " ++ os ++ "-" ++ arch)) := by
  refine ⟨?_, ?_, ?_⟩
  · unfold get_download_info
    split
    · simp [Except.isOk, Except.toBool]
    · simp [Except.isOk, Except.toBool]
    · simp [Except.isOk, Except.toBool]
    · simp [Except.isOk, Except.toBool]
    · rename_i h1 h2 h3 h4
      simp only [Except.isOk, Except.toBool]
      refine iff_of_false (by simp) ?_
      intro hm
      simp only [List.mem_cons, List.not_mem_nil, or_false, Prod.mk.injEq] at hm
      rcases hm with ⟨ho, ha⟩ | ⟨ho, ha⟩ | ⟨ho, ha⟩ | ⟨ho, ha⟩
      · exact h1 ho ha
      · exact h2 ho ha
      · exact h3 ho ha
      · exact h4 ho ha
  · intro url b h
    unfold get_download_info at h
    split at h <;> simp_all
  · intro hmem
    unfold get_download_info
    split
    · exact absurd (by decide) hmem
    · exact absurd (by decide) hmem
    · exact absurd (by decide) hmem
    · exact absurd (by decide) hmem
    · rfl

/-- Witness for C4 (amended): an unsupported pair gets the error. -/
theorem platform_resolver_total_witness :
    get_download_info "windows" "arm64" =
      Except.error "Unsupported platform: windows-arm64" :=
  (platform_resolver_total "windows" "arm64").2.2 (by decide)

theorem finishInstall_ok (env : DlEnv) (sts : List OllamaStatus)
    (files : DlFiles) (p : String) :
    (finishInstall env sts files).result = Except.ok p →
      env.chmod_ok = true ∧ env.probe_run_ok = true := by
  intro hp
  unfold finishInstall at hp
  split at hp
  · split at hp
    · exact ⟨by assumption, by assumption⟩
    · exact Except.noConfusion hp
  · exact Except.noConfusion hp

theorem extractPhase_ok (env : DlEnv) (sts : List OllamaStatus) (p : String) :
    (extractPhase env sts).result = Except.ok p →
      env.chmod_ok = true ∧ env.probe_run_ok = true := by
  intro hp
  unfold extractPhase at hp
  split at hp
  · exact Except.noConfusion hp
  · split at hp
    · exact Except.noConfusion hp
    · split at hp
      · exact Except.noConfusion hp
      · split at hp
        · exact Except.noConfusion hp
        · exact finishInstall_ok env _ _ p hp

/-- C5 counterexample: when the size gate passes but the version probe
fails, the installer errors WITHOUT deleting the artifact — the binary
file is still present, contradicting "the artifact file is deleted"
whenever either check fails. -/
theorem probe_failure_keeps_artifact :
    (download_ollama probeFailEnv).result =
      Except.error "Downloaded binary is not executable"
    ∧ (download_ollama probeFailEnv).files.bin_file = true := by decide

/-- C5 (amended) — Artifact promotion gate: a path is promoted (returned
`Ok`) only if the transfer reached the 1,000,000-byte threshold and the
version probe ran successfully; a failed size check deletes the artifact
and fails the run; a failed probe fails the run and never promotes (but,
unlike the claim, leaves the file in place — see the counterexample). -/
theorem artifact_promotion_gate (env : DlEnv) :
    (∀ p, (download_ollama env).result = Except.ok p →
        1000000 ≤ (dlTr env).1 ∧ env.probe_run_ok = true)
    ∧ ((get_download_info env.os env.arch).isOk = true → env.send_ok = true →
        (200 ≤ env.http_status ∧ env.http_status < 300) → env.create_ok = true →
        (dlTr env).2.2 = true → (dlTr env).1 < 1000000 →
        (download_ollama env).result =
          Except.error ("Download corrupted: got " ++ toString (dlTr env).1
            ++ " bytes instead of expected ~70MB")
        ∧ (download_ollama env).files = ⟨false, false⟩)
    ∧ (env.probe_run_ok = false →
        ∀ p, (download_ollama env).result ≠ Except.ok p) := by
  have hok : ∀ p, (download_ollama env).result = Except.ok p →
      1000000 ≤ (dlTr env).1 ∧ env.probe_run_ok = true := by
    intro p hp
    unfold download_ollama at hp
    split at hp
    · exact Except.noConfusion hp
    · split at hp
      · exact Except.noConfusion hp
      · split at hp
        · exact Except.noConfusion hp
        · split at hp
          · exact Except.noConfusion hp
          · split at hp
            · exact Except.noConfusion hp
            · split at hp
              · exact Except.noConfusion hp
              · split at hp
                · exact ⟨by omega, (extractPhase_ok env _ p hp).2⟩
                · exact ⟨by omega, (finishInstall_ok env _ _ p hp).2⟩
  refine ⟨hok, ?_, ?_⟩
  · intro hOk hs hh hc hw hlt
    unfold download_ollama
    split
    · rename_i e heq
      rw [heq] at hOk
      simp [Except.isOk, Except.toBool] at hOk
    · rw [if_neg (not_not_intro hs), if_neg (not_not_intro hh),
        if_neg (not_not_intro hc), if_neg (not_not_intro hw), if_pos hlt]
      exact ⟨rfl, rfl⟩
  · intro hpf p hcon
    have h2 := (hok p hcon).2
    rw [hpf] at h2
    exact Bool.noConfusion h2

/-- Witness for C5 (amended): the 500-byte download is rejected with the
corruption error, never promoted, and its file is removed. -/
theorem artifact_promotion_gate_witness :
    (download_ollama smallDownloadEnv).result =
      Except.error "Download corrupted: got 500 bytes instead of expected ~70MB"
    ∧ (download_ollama smallDownloadEnv).files = ⟨false, false⟩ :=
  (artifact_promotion_gate smallDownloadEnv).2.1 (by decide) (by decide)
    (by decide) (by decide) (by decide) (by decide)

/-- The download loop treats a chunk error exactly like end-of-stream:
`while let Ok(chunk)` simply stops iterating. -/
theorem transferRun_fail_eos (total : Nat) (pre post : List ChunkEv) :
    ∀ d, transferRun total (pre ++ ChunkEv.fail :: post) d
      = transferRun total (pre ++ ChunkEv.eos :: post) d := by
  induction pre with
  | nil => intro d; rfl
  | cons e rest ih =>
    intro d
    cases e <;> simp [transferRun, ih]

/-- C7 counterexample: a run whose transfer fails mid-way (chunk error
after 2,000,000 bytes) is NOT surfaced as a NetworkError — the installer
proceeds with the truncated file, which passes the size gate, and
promotes the path. -/
theorem chunk_error_not_surfaced :
    (download_ollama chunkErrEnv).result = Except.ok "bin/ollama" := by decide

/-- C7 (amended) — Network failures: a connect/request failure and a
non-success HTTP status are surfaced as NetworkError results; but a
mid-transfer chunk error is silently treated as end-of-stream (the run
behaves identically), with only the size gate left to catch truncation —
see the counterexample. -/
theorem network_errors_surfaced (env : DlEnv) :
    ((get_download_info env.os env.arch).isOk = true → env.send_ok = false →
        (download_ollama env).result = Except.error "Download request failed")
    ∧ ((get_download_info env.os env.arch).isOk = true → env.send_ok = true →
        ¬(200 ≤ env.http_status ∧ env.http_status < 300) →
        (download_ollama env).result =
          Except.error ("Download failed with HTTP " ++ toString env.http_status))
    ∧ (∀ pre post,
        download_ollama { env with transfer := pre ++ ChunkEv.fail :: post }
          = download_ollama { env with transfer := pre ++ ChunkEv.eos :: post }) := by
  refine ⟨?_, ?_, ?_⟩
  · intro hOk hs
    unfold download_ollama
    split
    · rename_i e heq
      rw [heq] at hOk
      simp [Except.isOk, Except.toBool] at hOk
    · rw [if_pos (show ¬env.send_ok = true by simp [hs])]
  · intro hOk hs hh
    unfold download_ollama
    split
    · rename_i e heq
      rw [heq] at hOk
      simp [Except.isOk, Except.toBool] at hOk
    · rw [if_neg (not_not_intro hs), if_pos hh]
  · intro pre post
    unfold download_ollama extractPhase finishInstall dlTr
    simp only [transferRun_fail_eos]

/-- Witness for C7 (amended): the connect failure and the HTTP 404 are
surfaced as errors. -/
theorem network_errors_surfaced_witness :
    (download_ollama sendFailEnv).result = Except.error "Download request failed"
    ∧ (download_ollama http404Env).result =
        Except.error "Download failed with HTTP 404" := by
  constructor
  · exact (network_errors_surfaced sendFailEnv).1 (by decide) (by decide)
  · exact (network_errors_surfaced http404Env).2.1 (by decide) (by decide) (by decide)

/-- C6 — Supervisor singleton and start idempotence: after any sequence of
start/stop calls at most one EngineProcess is held; `start` on a live
held process is a no-op returning `Ok`; two consecutive starts while the
process stays live spawn exactly one process; `stop` always clears the
held reference, and is the identity when none is held (no kill). -/
theorem supervisor_singleton :
    (∀ (env : SupEnv) (ops : List SupOp),
        heldCount (runSup env initWorld ops) ≤ 1)
    ∧ (∀ (env : SupEnv) (w : SupWorld) (pid : Nat),
        w.held = some pid → env.live pid = true →
        start_ollama_server env w = (Except.ok (), w))
    ∧ (∀ env : SupEnv, env.spawn_ok 0 = true → env.live 0 = true →
        (runSup env initWorld [SupOp.start, SupOp.start]).spawned = [0])
    ∧ (∀ w : SupWorld, (stop_ollama w).held = none)
    ∧ (∀ w : SupWorld, w.held = none → stop_ollama w = w)
    ∧ (∀ (w : SupWorld) (pid : Nat), w.held = some pid →
        (stop_ollama w).killed = w.killed ++ [pid]) := by
  refine ⟨?_, ?_, ?_, ?_, ?_, ?_⟩
  · intro env ops
    cases h : (runSup env initWorld ops).held <;> simp [heldCount, h]
  · intro env w pid hw hl
    simp [start_ollama_server, hw, hl]
  · intro env h0 hl
    simp [runSup, start_ollama_server, spawnChild, initWorld, h0, hl]
  · intro w
    cases h : w.held <;> simp [stop_ollama, h]
  · intro w hw
    cases w
    simp_all [stop_ollama]
  · intro w pid hw
    simp [stop_ollama, hw]

/-- Witness for C6: with reliable spawns and a live child, a double start
spawns exactly one process, and stopping the empty supervisor changes
nothing. -/
theorem supervisor_singleton_witness :
    (runSup allLiveEnv initWorld [SupOp.start, SupOp.start]).spawned = [0]
    ∧ stop_ollama initWorld = initWorld :=
  ⟨supervisor_singleton.2.2.1 allLiveEnv rfl rfl,
    supervisor_singleton.2.2.2.2.1 initWorld rfl⟩

theorem pollLoop_count_le (respond : Nat → Bool) :
    ∀ (fuel i : Nat), (pollLoop respond i fuel).2 ≤ fuel := by
  intro fuel
  induction fuel with
  | zero => intro i; simp [pollLoop]
  | succ n ih =>
    intro i
    by_cases h : respond i
    · simp [pollLoop, h]
    · simpa [pollLoop, h] using ih (i + 1)

theorem pollLoop_true_iff (respond : Nat → Bool) :
    ∀ (fuel i : Nat),
      (pollLoop respond i fuel).1 = true ↔ ∃ k, k < fuel ∧ respond (i + k) = true := by
  intro fuel
  induction fuel with
  | zero => intro i; simp [pollLoop]
  | succ n ih =>
    intro i
    by_cases h : respond i
    · constructor
      · intro _
        exact ⟨0, Nat.succ_pos n, by simpa using h⟩
      · intro _
        simp [pollLoop, h]
    · have hstep : (pollLoop respond i (n + 1)).1 = (pollLoop respond (i + 1) n).1 := by
        simp [pollLoop, h]
      rw [hstep, ih (i + 1)]
      constructor
      · rintro ⟨k, hk, hr⟩
        exact ⟨k + 1, by omega, by rw [show i + (k + 1) = i + 1 + k by omega]; exact hr⟩
      · rintro ⟨k, hk, hr⟩
        cases k with
        | zero => simp at hr; exact absurd hr h
        | succ m =>
          exact ⟨m, by omega, by rw [show i + 1 + m = i + (m + 1) by omega]; exact hr⟩

theorem pollLoop_first (respond : Nat → Bool) :
    ∀ (fuel i j : Nat), j < fuel → respond (i + j) = true →
      (∀ k, k < j → respond (i + k) = false) →
      pollLoop respond i fuel = (true, j + 1) := by
  intro fuel
  induction fuel with
  | zero => intro i j hj; omega
  | succ n ih =>
    intro i j hj hr hbefore
    cases j with
    | zero =>
      simp at hr
      simp [pollLoop, hr]
    | succ m =>
      have h0 : respond i = false := by simpa using hbefore 0 (Nat.succ_pos m)
      have hrec := ih (i + 1) m (by omega)
        (by rw [show i + 1 + m = i + (m + 1) by omega]; exact hr)
        (fun k hk => by
          rw [show i + 1 + k = i + (k + 1) by omega]
          exact hbefore (k + 1) (by omega))
      simp [pollLoop, h0, hrec]

/-- C8 — Readiness-probe contract: `wait_for_ready(budget)` makes at most
`2 × budget` attempts (one per fixed 500 ms tick); it returns `true` iff
some attempt within the budget succeeds — in particular `false`, never an
error, when the budget is exhausted — and it stops at the first
successful request, having issued exactly `j + 1` requests when attempt
`j` is the first success. -/
theorem readiness_probe_contract (respond : Nat → Bool) (s : Nat) :
    ((wait_for_ready respond s).1 = true ↔ ∃ i, i < s * 2 ∧ respond i = true)
    ∧ (wait_for_ready respond s).2 ≤ s * 2
    ∧ (∀ j, j < s * 2 → respond j = true → (∀ k, k < j → respond k = false) →
        wait_for_ready respond s = (true, j + 1)) := by
  refine ⟨?_, pollLoop_count_le respond (s * 2) 0, ?_⟩
  · rw [wait_for_ready, pollLoop_true_iff respond (s * 2) 0]
    simp
  · intro j hj hr hbefore
    exact pollLoop_first respond (s * 2) 0 j hj (by simpa using hr)
      (fun k hk => by simpa using hbefore k hk)

/-- Witness for C8: with budget 3 seconds and the first success at
attempt index 2, the probe returns `true` after exactly 3 requests (of
the at most 6 allowed). -/
theorem readiness_probe_contract_witness :
    wait_for_ready (fun i => i == 2) 3 = (true, 3) :=
  (readiness_probe_contract (fun i => i == 2) 3).2.2 2 (by decide) (by decide)
    (by decide)

/-- C9 — Lifecycle short-circuit: whenever the initial short-budget probe
succeeds, the run returns `Ok` having emitted exactly the status sequence
`[checking, ready]`, and neither binary search, download, nor process
start is invoked (the supervisor world is untouched). -/
theorem lifecycle_short_circuit (env : LcEnv) (w : SupWorld)
    (h : (wait_for_ready env.short 3).1 = true) :
    ensure_ollama_ready env w =
      ⟨Except.ok (), [checkingStatus, readyStatus], false, false, false, w⟩
    ∧ (ensure_ollama_ready env w).statuses.map OllamaStatus.stage
        = ["checking", "ready"] := by
  have hmain : ensure_ollama_ready env w =
      ⟨Except.ok (), [checkingStatus, readyStatus], false, false, false, w⟩ := by
    simp [ensure_ollama_ready, h]
  exact ⟨hmain, by rw [hmain]; rfl⟩

/-- Witness for C9: against an already-serving engine the run is
`[checking, ready]`, `Ok`, with no download or start. -/
theorem lifecycle_short_circuit_witness :
    ensure_ollama_ready readyLcEnv initWorld =
      ⟨Except.ok (), [checkingStatus, readyStatus], false, false, false, initWorld⟩ :=
  (lifecycle_short_circuit readyLcEnv initWorld (by decide)).1
